import Mathlib

/-!
Shallow embedding of the note-state synchronization model of the sticky-notes
manager (src/main.py and src/views/components/preview_panel.py).

The mutable Python state is modelled explicitly:
* `StickyNoteApp.all_notes` (the master list of note dictionaries) becomes
  `AppState.all_notes : List NoteRecord`;
* `StickyNoteApp.notes` (the list of `StickyNote` Toplevel windows, in which
  destroyed windows linger with `winfo_exists() = False`) becomes
  `AppState.notes : List LiveWindow` with an `alive` flag playing the role of
  `winfo_exists()`;
* the JSON file written by `save_notes` becomes `AppState.saved`.

Toolkit nondeterminism (the creation timestamp `datetime.now().strftime(...)`,
the random initial position, mouse drag deltas) is passed in as explicit
parameters.  Every method that mutates `all_notes`/`notes` is translated
one loop at a time; display-only state (the Treeview rows, the preview pane)
is modelled by the pure functions `filter_notes` / `update_preview` that the
code derives it with.
-/

/-- One entry of `StickyNoteApp.all_notes`: the note dictionary produced by
`StickyNote.get_note_data` and persisted to JSON. -/
structure NoteRecord where
  id : String
  text : String
  x : Int
  y : Int
  width : Int
  height : Int
  color : String
  is_open : Bool
  was_open : Bool
deriving DecidableEq, Repr

/-- A `StickyNote` Toplevel window as the synchronizer sees it: its id and the
widget state read back by `get_note_data`.  `alive` models `winfo_exists()`:
Python keeps destroyed windows inside `StickyNoteApp.notes`, it merely stops
them from existing. -/
structure LiveWindow where
  note_id : String
  text : String
  x : Int
  y : Int
  width : Int
  height : Int
  color : String
  alive : Bool
deriving DecidableEq, Repr

/-- The mutable state of `StickyNoteApp` relevant to the synchronization model,
plus the last JSON snapshot written by `save_notes`. -/
structure AppState where
  all_notes : List NoteRecord
  notes : List LiveWindow
  saved : List NoteRecord
deriving DecidableEq, Repr

/-- The state of a freshly constructed `StickyNoteApp` before `load_notes`
runs: both lists start empty (`self.notes = []`, `self.all_notes = []`) and
nothing has been written to disk. -/
def initState : AppState := { all_notes := [], notes := [], saved := [] }

/-- Python's `str.strip()`: drop leading and trailing whitespace
(char-list implementation, so that terms reduce). -/
def pyStrip (s : String) : String :=
  String.mk (((s.data.dropWhile Char.isWhitespace).reverse.dropWhile Char.isWhitespace).reverse)

/-- Python's `str.lower()` (char-list implementation, so that terms
reduce). -/
def pyLower (s : String) : String :=
  String.mk (s.data.map Char.toLower)

/-- `StickyNote.get_note_data`: reads the window state back into a note
dictionary.  `text_area.get("1.0", tk.END).strip()` strips surrounding
whitespace, and the method unconditionally records `is_open = True` and
`was_open = True`. -/
def get_note_data (w : LiveWindow) : NoteRecord :=
  { id := w.note_id
  , text := pyStrip w.text
  , x := w.x
  , y := w.y
  , width := w.width
  , height := w.height
  , color := w.color
  , is_open := true
  , was_open := true }

/-- The `for i, note in enumerate(self.all_notes): if note["id"] == note_id:
self.all_notes[i] = d; break` idiom: replace the first record with the given
id, leave everything else (including later duplicates) alone. -/
def replaceFirst : List NoteRecord → String → NoteRecord → List NoteRecord
  | [], _, _ => []
  | r :: rs, i, d => if r.id = i then d :: rs else r :: replaceFirst rs i d

/-- The `for note in self.all_notes: if note["id"] == note_id: ... break`
lookup idiom: first record with the given id. -/
def findFirst (recs : List NoteRecord) (i : String) : Option NoteRecord :=
  recs.find? (fun r => r.id == i)

/-- The `del self.all_notes[i]` after a first-match search in
`delete_selected_note`: remove the first record with the given id. -/
def eraseFirst : List NoteRecord → String → List NoteRecord
  | [], _ => []
  | r :: rs, i => if r.id = i then rs else r :: eraseFirst rs i

/-- The `open_note_ids` set built by `refresh_note_list`: ids of windows for
which `winfo_exists()` holds (membership is all the code uses). -/
def aliveIds (ws : List LiveWindow) : List String :=
  (ws.filter (fun w => w.alive)).map (fun w => w.note_id)

/-- First loop of `refresh_note_list`: for every live window, write
`note.get_note_data()` over the first matching record. -/
def pullWindows (ws : List LiveWindow) (recs : List NoteRecord) : List NoteRecord :=
  ws.foldl (fun acc w => if w.alive then replaceFirst acc w.note_id (get_note_data w) else acc) recs

/-- The record-level effect of `refresh_note_list`: pull every live window's
state in, then force `is_open = False` on every record whose id has no live
window. -/
def refreshRecs (ws : List LiveWindow) (recs : List NoteRecord) : List NoteRecord :=
  (pullWindows ws recs).map (fun r => if r.id ∈ aliveIds ws then r else { r with is_open := false })

/-- `StickyNoteApp.refresh_note_list`: reconcile `all_notes` against the live
windows (the final `filter_notes()` call only redraws the Treeview). -/
def refresh_note_list (s : AppState) : AppState :=
  { s with all_notes := refreshRecs s.notes s.all_notes }

/-- `StickyNoteApp.save_notes`: re-run `refresh_note_list`, then dump
`all_notes` to the JSON file (modelled by the `saved` field). -/
def save_notes (s : AppState) : AppState :=
  let s1 := refresh_note_list s
  { s1 with saved := s1.all_notes }

/-- `StickyNoteApp.update_note_in_list`: find the first live window with the
id; if none exists return unchanged, otherwise overwrite the first matching
record with `get_note_data()` and refresh (the trailing `update_preview()`
only redraws the preview pane). -/
def update_note_in_list (i : String) (s : AppState) : AppState :=
  match s.notes.find? (fun w => w.alive && w.note_id == i) with
  | none => s
  | some w => refresh_note_list { s with all_notes := replaceFirst s.all_notes i (get_note_data w) }

/-- `StickyNoteApp.update_closed_note`: overwrite the first record matching
`note_data["id"]` with the given dictionary, then `refresh_note_list()`. -/
def update_closed_note (d : NoteRecord) (s : AppState) : AppState :=
  refresh_note_list { s with all_notes := replaceFirst s.all_notes d.id d }

/-- `StickyNote.save_note` of the window at position `i` of `app.notes`:
`self.master.save_notes()` followed by
`self.master.update_note_in_list(self.note_id)`. -/
def save_note (i : Nat) (s : AppState) : AppState :=
  match s.notes.get? i with
  | none => s
  | some w => update_note_in_list w.note_id (save_notes s)

/-- `StickyNote.on_close` of the window at position `i`: save, push its data
with `is_open = False`, `was_open = True` through `update_closed_note`, then
`self.destroy()` (which flips `winfo_exists()` to false but leaves the object
in `app.notes`).  Only a live window can receive the close event. -/
def on_close (i : Nat) (s : AppState) : AppState :=
  match s.notes.get? i with
  | none => s
  | some w =>
    if w.alive then
      let s1 := save_note i s
      let d := { get_note_data w with is_open := false, was_open := true }
      let s2 := update_closed_note d s1
      { s2 with notes := s2.notes.set i { w with alive := false } }
    else s

/-- The window constructed by `create_new_note(note_data)`: `StickyNote` gets
the record's id, text, position and color, and its geometry is restored from
the record's width/height (both keys are always present). -/
def windowOf (d : NoteRecord) : LiveWindow :=
  { note_id := d.id
  , text := d.text
  , x := d.x
  , y := d.y
  , width := d.width
  , height := d.height
  , color := d.color
  , alive := true }

/-- `StickyNoteApp.create_new_note(note_data)` with a note dictionary: build
the window, then replace the first record with the same id
(`is_new = False`) or append `get_note_data()` when no record matches, add
the window to `self.notes`, and `refresh_note_list()`. -/
def create_new_note_data (d : NoteRecord) (s : AppState) : AppState :=
  let w := windowOf d
  let recs :=
    if (s.all_notes.find? (fun r => r.id == d.id)).isSome then
      replaceFirst s.all_notes d.id (get_note_data w)
    else
      s.all_notes ++ [get_note_data w]
  refresh_note_list { s with all_notes := recs, notes := s.notes ++ [w] }

/-- `StickyNoteApp.create_new_note()` without note data: a brand-new
`StickyNote` whose id is the current timestamp (`freshId`), placed at a
random position (`px`, `py`), 200x200 and pale yellow; its data is appended
to `all_notes` unconditionally, then `refresh_note_list()`. -/
def create_new_note_blank (freshId : String) (px py : Int) (s : AppState) : AppState :=
  let w : LiveWindow :=
    { note_id := freshId, text := "", x := px, y := py
    , width := 200, height := 200, color := "#FFFF99", alive := true }
  refresh_note_list { s with all_notes := s.all_notes ++ [get_note_data w], notes := s.notes ++ [w] }

/-- `StickyNoteApp.open_selected_note` with the selected row's id: if some
live window already has the id only focus changes; otherwise find the first
matching record, set its `is_open = True` in place, and hand it to
`create_new_note`; with no matching record only an error dialog is shown. -/
def open_selected_note (i : String) (s : AppState) : AppState :=
  if (s.notes.find? (fun w => w.alive && w.note_id == i)).isSome then s
  else
    match findFirst s.all_notes i with
    | none => s
    | some r =>
      let r1 := { r with is_open := true }
      create_new_note_data r1 { s with all_notes := replaceFirst s.all_notes i r1 }

/-- `StickyNoteApp.delete_selected_note` after the user confirms: destroy and
remove every live window with the id (destroyed ones stay in `self.notes`),
delete the first matching record, then `save_notes()` and
`refresh_note_list()`. -/
def delete_selected_note (i : String) (s : AppState) : AppState :=
  let ws := s.notes.filter (fun w => !(w.alive && w.note_id == i))
  refresh_note_list (save_notes { s with notes := ws, all_notes := eraseFirst s.all_notes i })

/-- `StickyNoteApp.change_selected_note_color` after the user picks `c`:
write the color into the first matching record, recolor every live window
with the id, then `save_notes()` and `refresh_note_list()` (the trailing
`update_preview()` only redraws the preview pane). -/
def change_selected_note_color (i : String) (c : String) (s : AppState) : AppState :=
  match findFirst s.all_notes i with
  | none => s
  | some r =>
    let recs := replaceFirst s.all_notes i { r with color := c }
    let ws := s.notes.map (fun w => if w.alive && w.note_id == i then { w with color := c } else w)
    refresh_note_list (save_notes { s with all_notes := recs, notes := ws })

/-- Inner loop of `on_exit`: mark the first record matching a live window's
id with `was_open = True`. -/
def markWasOpen : List NoteRecord → String → List NoteRecord
  | [], _ => []
  | r :: rs, i => if r.id = i then { r with was_open := true } :: rs else r :: markWasOpen rs i

/-- `StickyNoteApp.on_exit`: flag the record of every live window with
`was_open = True`, then `save_notes()` (the final `destroy()` ends the
process). -/
def on_exit (s : AppState) : AppState :=
  let recs := s.notes.foldl (fun acc w => if w.alive then markWasOpen acc w.note_id else acc) s.all_notes
  save_notes { s with all_notes := recs }

/-- `StickyNoteApp.load_notes` when the JSON file exists and parses to `L`:
install `L` as `all_notes`, `refresh_note_list()` (at that point `self.notes`
is still empty), snapshot the records with `is_open or was_open`, and call
`create_new_note` on each. -/
def load_notes (L : List NoteRecord) (s : AppState) : AppState :=
  let s1 := refresh_note_list { s with all_notes := L }
  let opens := s1.all_notes.filter (fun r => r.is_open || r.was_open)
  opens.foldl (fun acc d => create_new_note_data d acc) s1

/-- `StickyNote.on_resize` acting on the window at position `i`: the new
geometry is the drag delta applied to the size at press time, clamped to a
minimum of 100 in each dimension. -/
def on_resize (i : Nat) (dx dy : Int) (s : AppState) : AppState :=
  match s.notes.get? i with
  | none => s
  | some w =>
    if w.alive then
      { s with notes := s.notes.set i { w with width := max 100 (w.width + dx), height := max 100 (w.height + dy) } }
    else s

/-- Typing into the text area of the live window at position `i` (window-local
until a flush pulls it into the store). -/
def type_text (i : Nat) (t : String) (s : AppState) : AppState :=
  match s.notes.get? i with
  | none => s
  | some w => if w.alive then { s with notes := s.notes.set i { w with text := t } } else s

/-! ## Display projections -/

/-- The state of the read-only preview pane: its text content and
background color. -/
structure PreviewState where
  text : String
  color : String
deriving DecidableEq, Repr

/-- `StickyNoteApp.update_preview` as a state transformer of the preview
pane, for store `recs` and Treeview selection `sel`: with a selection whose
id is found, the pane shows that record's text and color; with no selection
the pane is cleared to empty text on white; with a selection whose id is not
found the body of `if note_data:` is skipped and the pane keeps its previous
content. -/
def update_preview (recs : List NoteRecord) (sel : Option String) (prev : PreviewState) :
    PreviewState :=
  match sel with
  | none => { text := "", color := "white" }
  | some i =>
    match findFirst recs i with
    | none => prev
    | some r => { text := r.text, color := r.color }

/-- `PreviewPanelComponent.update_preview` (src/views/components/
preview_panel.py): always clears the text widget, then inserts the note's
text and color when a note is given and falls back to white otherwise. -/
def component_update_preview (note : Option NoteRecord) : PreviewState :=
  match note with
  | none => { text := "", color := "white" }
  | some n => { text := n.text, color := n.color }

/-- One row of the Treeview built by `filter_notes`:
`(note["id"], date_display, preview, status)`. -/
structure RowData where
  id : String
  date : String
  preview : String
  status : String
deriving DecidableEq, Repr

/-- Python's substring test `needle in hay`. -/
def pySubstr (needle hay : String) : Bool :=
  decide (needle.data <:+: hay.data)

/-- The filter predicate of `filter_notes`: the lowercased search string is a
substring of the lowercased id or of the lowercased text. -/
def matchesQuery (q : String) (r : NoteRecord) : Bool :=
  pySubstr (pyLower q) (pyLower r.id) || pySubstr (pyLower q) (pyLower r.text)

/-- Numeric value of a digit string, for the timestamp fields. -/
def natOfDigits (cs : List Char) : Nat :=
  cs.foldl (fun n c => n * 10 + (c.toNat - 48)) 0

/-- Leap-year rule used by `datetime`. -/
def isLeap (y : Nat) : Bool :=
  (y % 4 == 0 && y % 100 != 0) || (y % 400 == 0)

/-- Days in a month, as `datetime` validates `%d`. -/
def daysInMonth (y m : Nat) : Nat :=
  if m == 2 then (if isLeap y then 29 else 28)
  else if m == 4 || m == 6 || m == 9 || m == 11 then 30
  else 31

/-- The date column of `filter_notes`: a 14-digit id is parsed with
`datetime.strptime(date_str, "%Y%m%d%H%M%S")` and reformatted as
`"%Y/%m/%d %H:%M"`; any other id, or an id `strptime` rejects
(month/day/hour/minute/second out of range, year 0), is shown raw. -/
def dateDisplay (i : String) : String :=
  let cs := i.data
  if cs.length == 14 && cs.all Char.isDigit then
    let y := natOfDigits (cs.take 4)
    let mo := natOfDigits ((cs.drop 4).take 2)
    let d := natOfDigits ((cs.drop 6).take 2)
    let h := natOfDigits ((cs.drop 8).take 2)
    let mi := natOfDigits ((cs.drop 10).take 2)
    let sec := natOfDigits ((cs.drop 12).take 2)
    if 1 ≤ y ∧ 1 ≤ mo ∧ mo ≤ 12 ∧ 1 ≤ d ∧ d ≤ daysInMonth y mo ∧ h ≤ 23 ∧ mi ≤ 59 ∧ sec ≤ 59 then
      String.mk (cs.take 4) ++ "/" ++ String.mk ((cs.drop 4).take 2) ++ "/"
        ++ String.mk ((cs.drop 6).take 2) ++ " " ++ String.mk ((cs.drop 8).take 2)
        ++ ":" ++ String.mk ((cs.drop 10).take 2)
    else i
  else i

/-- The preview column of `filter_notes`: strip the text, collapse newlines
and carriage returns to spaces, truncate to 80 characters with `"..."`, and
substitute the placeholder for an empty result. -/
def previewCell (t : String) : String :=
  let t1 := String.mk ((pyStrip t).data.map (fun c => if c = '\n' ∨ c = '\r' then ' ' else c))
  let p := if t1.data.length > 80 then String.mk (t1.data.take 80) ++ "..." else t1
  if p == "" then "(内容なし)" else p

/-- The Treeview row `filter_notes` inserts for one record. -/
def mkRow (r : NoteRecord) : RowData :=
  { id := r.id
  , date := dateDisplay r.id
  , preview := previewCell r.text
  , status := if r.is_open then "開いている" else "閉じている" }

/-- `StickyNoteApp.filter_notes`: clear the Treeview, then walk `all_notes`
in order, appending a row for every record matching the search string. -/
def filter_notes (q : String) (recs : List NoteRecord) : List RowData :=
  recs.foldl (fun acc r => if matchesQuery q r then acc ++ [mkRow r] else acc) []

/-! ## User-level operations

`Op` enumerates the event handlers a user action can fire, with the toolkit
nondeterminism (fresh timestamp id, random placement, drag deltas, color
picked in the dialog, file contents) as parameters.  `create_new_note` with
a note dictionary is not listed separately: it is only invoked from
`open_selected_note` and `load_notes`. -/
inductive Op where
  | createBlank (freshId : String) (px py : Int)
  | openSelected (i : String)
  | focusOut (i : Nat)
  | closeWin (i : Nat)
  | recolor (i : String) (c : String)
  | refreshList
  | saveAll
  | exitApp
  | deleteNote (i : String)
  | resizeWin (i : Nat) (dx dy : Int)
  | setText (i : Nat) (t : String)
  | loadFile (L : List NoteRecord)
deriving DecidableEq, Repr

/-- Dispatch an operation to the handler it models.  `focusOut` is the
`<FocusOut>` binding (`save_on_focus_out`, i.e. `save_note`), `closeWin` the
close button / `WM_DELETE_WINDOW`, `refreshList` the 更新 button, `saveAll` a
bare `save_notes`, `loadFile` the startup load. -/
def applyOp : Op → AppState → AppState
  | .createBlank t px py, s => create_new_note_blank t px py s
  | .openSelected i, s => open_selected_note i s
  | .focusOut i, s => save_note i s
  | .closeWin i, s => on_close i s
  | .recolor i c, s => change_selected_note_color i c s
  | .refreshList, s => refresh_note_list s
  | .saveAll, s => save_notes s
  | .exitApp, s => on_exit s
  | .deleteNote i, s => delete_selected_note i s
  | .resizeWin i dx dy, s => on_resize i dx dy s
  | .setText i t, s => type_text i t s
  | .loadFile L, s => load_notes L s

/-! ## Reachability by create/close/reopen actions

The step relation used by the first testable property of the spec: an
arbitrary interleaving of new-note creation (with whatever timestamp the
clock yields), closing a live window, and reopening a listed note. -/

/-- Whether the window at position `i` of `app.notes` exists and is live
(the only windows a user can close). -/
def aliveAt (s : AppState) (i : Nat) : Bool :=
  ((s.notes.get? i).map LiveWindow.alive).getD false

/-- One create, close, or reopen action. -/
inductive UserStep : AppState → AppState → Prop where
  | create (t : String) (px py : Int) (s : AppState) :
      UserStep s (applyOp (.createBlank t px py) s)
  | close (i : Nat) (s : AppState) (h : aliveAt s i = true) :
      UserStep s (applyOp (.closeWin i) s)
  | reopen (i : String) (s : AppState) (h : i ∈ s.all_notes.map NoteRecord.id) :
      UserStep s (applyOp (.openSelected i) s)

/-- States reachable from a fresh app (no saved file) by create/close/reopen
actions. -/
def ReachableCCR (s : AppState) : Prop :=
  Relation.ReflTransGen UserStep initState s

/-- The reconciliation invariant of the spec: after `refresh_note_list`, a
record's `is_open` is true exactly when some live window bears its id. -/
def ReconInv (s : AppState) : Prop :=
  ∀ r ∈ (refresh_note_list s).all_notes,
    (r.is_open = true ↔ ∃ w ∈ s.notes, w.alive = true ∧ w.note_id = r.id)

instance (s : AppState) : Decidable (ReconInv s) := by
  unfold ReconInv; infer_instance

/-! ## Invariant vocabulary used by the theorems -/

/-- `op` is the startup load. -/
def Op.isLoad : Op → Bool
  | .loadFile _ => true
  | _ => false

/-- No record of `new` has a cleared `was_open` flag unless a record with the
same id already had it cleared in `old`: the formal content of "`was_open` is
monotone, no operation resets it". -/
def NoFalseIntro (old new : List NoteRecord) : Prop :=
  ∀ r' ∈ new, r'.was_open = false → ∃ r ∈ old, r.id = r'.id ∧ r.was_open = false

/-- Every record respects the 100-pixel minimum size. -/
def boundedRecs (recs : List NoteRecord) : Prop :=
  ∀ r ∈ recs, 100 ≤ r.width ∧ 100 ≤ r.height

/-- Every window (live or destroyed) respects the 100-pixel minimum size. -/
def boundedWins (ws : List LiveWindow) : Prop :=
  ∀ w ∈ ws, 100 ≤ w.width ∧ 100 ≤ w.height

/-- Both halves of the state respect the minimum size. -/
def boundedState (s : AppState) : Prop :=
  boundedRecs s.all_notes ∧ boundedWins s.notes

/-- The operation's own input data respects the minimum size (only the load
operation carries record data whose dimensions the code never validates). -/
def opBounded : Op → Prop
  | .loadFile L => boundedRecs L
  | _ => True

/-- The operation's id input does not collide: a blank creation's fresh
timestamp id is genuinely fresh, and a loaded file has no duplicate ids.
Every other operation is unconstrained. -/
def opFresh : Op → AppState → Prop
  | .createBlank t _ _, s => t ∉ s.all_notes.map NoteRecord.id
  | .loadFile L, _ => (L.map NoteRecord.id).Nodup
  | _, _ => True

/-! ## Concrete states for counterexamples and witnesses -/

/-- A paradigm record: closed now, opened at some point. -/
def recA : NoteRecord :=
  { id := "A", text := "", x := 0, y := 0, width := 200, height := 200
  , color := "#FFFF99", is_open := false, was_open := true }

/-- A record whose window is allegedly open but that was never flagged
`was_open` (expressible in a hand-written JSON file). -/
def recOpenOnly : NoteRecord := { recA with is_open := true, was_open := false }

/-- A second record, currently marked open. -/
def recB : NoteRecord := { recA with id := "B", is_open := true }

/-- A store holding only `recA`, with no windows. -/
def stA : AppState := { all_notes := [recA], notes := [], saved := [] }

/-- A store holding only `recB`, with no windows. -/
def stB : AppState := { all_notes := [recB], notes := [], saved := [] }

/-- A live window bearing `recA`'s id. -/
def winA : LiveWindow :=
  { note_id := "A", text := "note text", x := 0, y := 0, width := 200, height := 200
  , color := "#FFFF99", alive := true }

/-- A store holding `recA` together with its live window. -/
def stAW : AppState := { all_notes := [recA], notes := [winA], saved := [] }

/-- The scenario trace of the spec: create a note, type "hello", lose focus,
close the window.  The timestamp id and the random placement are fixed
arbitrarily. -/
def scenarioClose : AppState :=
  applyOp (.closeWin 0)
    (applyOp (.focusOut 0)
      (applyOp (.setText 0 "hello")
        (applyOp (.createBlank "20250101120000" 10 20) initState)))

/-- A create/close/reopen trace whose timestamps collide: two blank notes are
created under the same second-granularity id "A", both are closed, a third
note "B" is created, and "A" is reopened from the list. -/
def traceDup : AppState :=
  applyOp (.openSelected "A")
    (applyOp (.createBlank "B" 0 0)
      (applyOp (.closeWin 0)
        (applyOp (.closeWin 1)
          (applyOp (.createBlank "A" 0 0)
            (applyOp (.createBlank "A" 0 0) initState)))))

/-- A stale preview payload. -/
def prevStale : PreviewState := { text := "x", color := "#123456" }

/-! ## Basic lemmas about the store primitives -/

theorem get_note_data_id (w : LiveWindow) : (get_note_data w).id = w.note_id := rfl

theorem get_note_data_was_open (w : LiveWindow) : (get_note_data w).was_open = true := rfl

theorem get_note_data_is_open (w : LiveWindow) : (get_note_data w).is_open = true := rfl

theorem replaceFirst_ids (recs : List NoteRecord) (i : String) (d : NoteRecord)
    (hd : d.id = i) : (replaceFirst recs i d).map NoteRecord.id = recs.map NoteRecord.id := by
  induction recs with
  | nil => rfl
  | cons r rs ih =>
    by_cases h : r.id = i
    · simp [replaceFirst, h, hd]
    · simp [replaceFirst, h, ih]

theorem replaceFirst_mem {recs : List NoteRecord} {i : String} {d r' : NoteRecord}
    (h : r' ∈ replaceFirst recs i d) : r' ∈ recs ∨ r' = d := by
  induction recs with
  | nil => simp [replaceFirst] at h
  | cons r rs ih =>
    by_cases hr : r.id = i
    · simp [replaceFirst, hr] at h
      rcases h with h | h
      · exact Or.inr h
      · exact Or.inl (List.mem_cons_of_mem _ h)
    · simp [replaceFirst, hr] at h
      rcases h with h | h
      · exact Or.inl (by simp [h])
      · rcases ih h with h' | h'
        · exact Or.inl (List.mem_cons_of_mem _ h')
        · exact Or.inr h'

/-- With pairwise-distinct ids, after replacing the first record with id `i`
by `d`, every record with id `i` is `d`. -/
theorem replaceFirst_unique {recs : List NoteRecord} {i : String} {d : NoteRecord}
    (hnd : (recs.map NoteRecord.id).Nodup) (hd : d.id = i) :
    ∀ r' ∈ replaceFirst recs i d, r'.id = i → r' = d := by
  induction recs with
  | nil => simp [replaceFirst]
  | cons r rs ih =>
    simp only [List.map_cons, List.nodup_cons] at hnd
    by_cases hr : r.id = i
    · intro r' hr' hid
      simp [replaceFirst, hr] at hr'
      rcases hr' with h | h
      · exact h
      · exfalso
        exact hnd.1 (hr ▸ hid ▸ List.mem_map_of_mem NoteRecord.id h)
    · intro r' hr' hid
      simp [replaceFirst, hr] at hr'
      rcases hr' with h | h
      · exact absurd (h ▸ hid) hr
      · exact ih hnd.2 r' h hid

theorem eraseFirst_sublist (recs : List NoteRecord) (i : String) :
    List.Sublist (eraseFirst recs i) recs := by
  induction recs with
  | nil => simp [eraseFirst]
  | cons r rs ih =>
    by_cases h : r.id = i
    · rw [eraseFirst, if_pos h]
      exact List.Sublist.cons r (List.Sublist.refl rs)
    · rw [eraseFirst, if_neg h]
      exact ih.cons₂ r

theorem markWasOpen_ids (recs : List NoteRecord) (i : String) :
    (markWasOpen recs i).map NoteRecord.id = recs.map NoteRecord.id := by
  induction recs with
  | nil => rfl
  | cons r rs ih =>
    by_cases h : r.id = i
    · simp [markWasOpen, h]
    · simp [markWasOpen, h, ih]

theorem markWasOpen_mem {recs : List NoteRecord} {i : String} {r' : NoteRecord}
    (h : r' ∈ markWasOpen recs i) : r' ∈ recs ∨ ∃ r ∈ recs, r' = { r with was_open := true } := by
  induction recs with
  | nil => simp [markWasOpen] at h
  | cons r rs ih =>
    by_cases hr : r.id = i
    · rw [markWasOpen, if_pos hr] at h
      rcases List.mem_cons.mp h with h | h
      · exact Or.inr ⟨r, List.mem_cons_self r rs, h⟩
      · exact Or.inl (List.mem_cons_of_mem _ h)
    · rw [markWasOpen, if_neg hr] at h
      rcases List.mem_cons.mp h with h | h
      · exact Or.inl (by simp [h])
      · rcases ih h with h' | ⟨r0, hr0, he⟩
        · exact Or.inl (List.mem_cons_of_mem _ h')
        · exact Or.inr ⟨r0, List.mem_cons_of_mem _ hr0, he⟩

theorem mem_aliveIds {ws : List LiveWindow} {i : String} :
    i ∈ aliveIds ws ↔ ∃ w ∈ ws, w.alive = true ∧ w.note_id = i := by
  simp only [aliveIds, List.mem_map, List.mem_filter]
  constructor
  · rintro ⟨w, ⟨hw, ha⟩, hid⟩
    exact ⟨w, hw, ha, hid⟩
  · rintro ⟨w, hw, ha, hid⟩
    exact ⟨w, ⟨hw, ha⟩, hid⟩

theorem pullWindows_nil (recs : List NoteRecord) : pullWindows [] recs = recs := rfl

theorem pullWindows_cons (w : LiveWindow) (ws : List LiveWindow) (recs : List NoteRecord) :
    pullWindows (w :: ws) recs =
      pullWindows ws (if w.alive then replaceFirst recs w.note_id (get_note_data w) else recs) := by
  simp [pullWindows, List.foldl_cons]

theorem pullWindows_ids (ws : List LiveWindow) :
    ∀ recs : List NoteRecord,
      (pullWindows ws recs).map NoteRecord.id = recs.map NoteRecord.id := by
  induction ws with
  | nil => intro recs; rfl
  | cons w ws ih =>
    intro recs
    rw [pullWindows_cons]
    by_cases h : w.alive = true
    · rw [if_pos h, ih, replaceFirst_ids _ _ _ (get_note_data_id w)]
    · rw [if_neg h, ih]

theorem pullWindows_mem {ws : List LiveWindow} :
    ∀ {recs : List NoteRecord} {r' : NoteRecord}, r' ∈ pullWindows ws recs →
      r' ∈ recs ∨ ∃ w ∈ ws, w.alive = true ∧ r' = get_note_data w := by
  induction ws with
  | nil => intro recs r' h; exact Or.inl h
  | cons w ws ih =>
    intro recs r' h
    rw [pullWindows_cons] at h
    by_cases hw : w.alive = true
    · rw [if_pos hw] at h
      rcases ih h with h' | ⟨w0, hw0, ha0, he0⟩
      · rcases replaceFirst_mem h' with h'' | h''
        · exact Or.inl h''
        · exact Or.inr ⟨w, by simp, hw, h''⟩
      · exact Or.inr ⟨w0, List.mem_cons_of_mem _ hw0, ha0, he0⟩
    · rw [if_neg hw] at h
      rcases ih h with h' | ⟨w0, hw0, ha0, he0⟩
      · exact Or.inl h'
      · exact Or.inr ⟨w0, List.mem_cons_of_mem _ hw0, ha0, he0⟩

/-! ## Reconciliation lemmas -/

theorem refreshRecs_ids (ws : List LiveWindow) (recs : List NoteRecord) :
    (refreshRecs ws recs).map NoteRecord.id = recs.map NoteRecord.id := by
  unfold refreshRecs
  rw [List.map_map, ← pullWindows_ids ws recs]
  apply List.map_congr_left
  intro r _
  by_cases h : r.id ∈ aliveIds ws
  · simp [h]
  · simp [h]

theorem refresh_ids (s : AppState) :
    (refresh_note_list s).all_notes.map NoteRecord.id = s.all_notes.map NoteRecord.id :=
  refreshRecs_ids s.notes s.all_notes

theorem refresh_notes (s : AppState) : (refresh_note_list s).notes = s.notes := rfl

theorem refresh_saved (s : AppState) : (refresh_note_list s).saved = s.saved := rfl

/-- Every record of a reconciled store is either a pulled window snapshot or
an old record with at most its `is_open` flag cleared. -/
theorem refreshRecs_mem {ws : List LiveWindow} {recs : List NoteRecord} {r' : NoteRecord}
    (h : r' ∈ refreshRecs ws recs) :
    ∃ r0, (r0 ∈ recs ∨ ∃ w ∈ ws, w.alive = true ∧ r0 = get_note_data w) ∧
      (r' = r0 ∨ r' = { r0 with is_open := false }) := by
  unfold refreshRecs at h
  rcases List.mem_map.mp h with ⟨r0, hr0, he⟩
  refine ⟨r0, pullWindows_mem hr0, ?_⟩
  by_cases hm : r0.id ∈ aliveIds ws
  · rw [if_pos hm] at he
    exact Or.inl he.symm
  · rw [if_neg hm] at he
    exact Or.inr he.symm

/-- If every record bearing id `i` is currently flagged open, pulling window
snapshots (all flagged open) keeps it that way. -/
theorem pullWindows_keeps_open {i : String} {ws : List LiveWindow} {recs : List NoteRecord}
    (h : ∀ r ∈ recs, r.id = i → r.is_open = true) :
    ∀ r' ∈ pullWindows ws recs, r'.id = i → r'.is_open = true := by
  intro r' hr' _
  rcases pullWindows_mem hr' with hm | ⟨w, _, _, he⟩
  · exact h r' hm (by assumption)
  · rw [he]; rfl

/-- With pairwise-distinct ids, a record whose id has a live window comes out
of the pull loop flagged open. -/
theorem pullWindows_open_true {i : String} :
    ∀ (ws : List LiveWindow) (recs : List NoteRecord),
      (recs.map NoteRecord.id).Nodup →
      (∃ w ∈ ws, w.alive = true ∧ w.note_id = i) →
      ∀ r' ∈ pullWindows ws recs, r'.id = i → r'.is_open = true := by
  intro ws
  induction ws with
  | nil => intro recs _ hex; simp at hex
  | cons w ws ih =>
    intro recs hnd hex r' hr' hid
    rw [pullWindows_cons] at hr'
    rcases hex with ⟨w0, hw0, ha0, hid0⟩
    rcases List.mem_cons.mp hw0 with he | hmem
    · -- the head window bears id `i`: from here on all id-`i` records are open
      subst he
      rw [if_pos ha0] at hr'
      refine pullWindows_keeps_open ?_ r' hr' hid
      intro r hr hri
      have := replaceFirst_unique hnd (get_note_data_id w0 |>.trans hid0) r
        (by rw [hid0] at hr; exact hr) hri
      rw [this]; rfl
    · -- the witness window is deeper: step once and use the ih
      by_cases hw : w.alive = true
      · rw [if_pos hw] at hr'
        refine ih _ ?_ ⟨w0, hmem, ha0, hid0⟩ r' hr' hid
        rw [replaceFirst_ids _ _ _ (get_note_data_id w)]
        exact hnd
      · rw [if_neg hw] at hr'
        exact ih _ hnd ⟨w0, hmem, ha0, hid0⟩ r' hr' hid

/-- The reconciliation invariant holds after `refresh_note_list` on any state
whose record ids are pairwise distinct. -/
theorem reconInv_of_nodup (s : AppState) (hnd : (s.all_notes.map NoteRecord.id).Nodup) :
    ReconInv s := by
  intro r hr
  unfold refresh_note_list at hr
  simp only at hr
  unfold refreshRecs at hr
  rcases List.mem_map.mp hr with ⟨r0, hr0, he⟩
  by_cases hm : r0.id ∈ aliveIds s.notes
  · rw [if_pos hm] at he
    subst he
    constructor
    · intro _
      exact mem_aliveIds.mp hm
    · intro _
      exact pullWindows_open_true s.notes s.all_notes hnd (mem_aliveIds.mp hm) r0 hr0 rfl
  · rw [if_neg hm] at he
    subst he
    constructor
    · intro hfalse
      simp at hfalse
    · intro hex
      exact absurd (mem_aliveIds.mpr hex) hm

/-! ## Claim C1 -/

/-- Claim C1 (amended): for every state whose record ids are pairwise
distinct, immediately after `refresh_note_list` a record's `is_open` flag is
true iff a live window bearing its id exists.  (The distinctness proviso is
forced by the counterexample below: a second-granularity timestamp collision
in blank creation makes stores with duplicate ids reachable, and there the
later duplicate can keep a stale `is_open = false` while a live window with
its id exists.) -/
theorem c1_reconcile_after_refresh (s : AppState)
    (hnd : (s.all_notes.map NoteRecord.id).Nodup) :
    ∀ r ∈ (refresh_note_list s).all_notes,
      (r.is_open = true ↔ ∃ w ∈ s.notes, w.alive = true ∧ w.note_id = r.id) :=
  reconInv_of_nodup s hnd

/-- Claim C1 witness: on the concrete single-note store with one live window,
the amended theorem instantiates and yields that window. -/
theorem c1_reconcile_witness :
    ∃ w ∈ stAW.notes, w.alive = true ∧ w.note_id = (get_note_data winA).id :=
  ((c1_reconcile_after_refresh stAW (by decide)) (get_note_data winA) (by decide)).mp (by decide)

/-- Claim C1 counterexample: the state `traceDup` is reachable from a fresh
app by create/close/reopen actions alone (two blank creations share the
timestamp id "A"), yet after `refresh_note_list` the reconciliation
biconditional fails: the duplicate record of id "A" keeps `is_open = false`
although a live window with id "A" exists. -/
theorem c1_reconcile_counterexample : ReachableCCR traceDup ∧ ¬ ReconInv traceDup := by
  constructor
  · refine Relation.ReflTransGen.head (UserStep.create "A" 0 0 initState) ?_
    refine Relation.ReflTransGen.head (UserStep.create "A" 0 0 _) ?_
    refine Relation.ReflTransGen.head (UserStep.close 1 _ (by decide)) ?_
    refine Relation.ReflTransGen.head (UserStep.close 0 _ (by decide)) ?_
    refine Relation.ReflTransGen.head (UserStep.create "B" 0 0 _) ?_
    refine Relation.ReflTransGen.head (UserStep.reopen "A" _ (by decide)) ?_
    exact Relation.ReflTransGen.refl
  · decide

/-! ## Claim C2 -/

/-- Claim C2 (code bug): running the spec's scenario — create a note, type
"hello", lose focus, close the window — leaves the record with
`text = "hello"` and `was_open = true` as claimed, but with
`is_open = true`, not `false`: `update_closed_note` writes `is_open = false`
and then immediately calls `refresh_note_list`, which re-pulls the
still-existing window (`self.destroy()` only runs afterwards) and restores
`is_open = true`, contradicting `on_close`'s documented behaviour of marking
the note closed. -/
theorem c2_close_scenario :
    scenarioClose.all_notes.map (fun r => (r.id, r.text, r.is_open, r.was_open)) =
      [("20250101120000", "hello", true, true)] := by
  decide

/-! ## Frame lemmas for the synchronizer operations -/

theorem exists_of_mem_ids {recs : List NoteRecord} {i : String}
    (h : i ∈ recs.map NoteRecord.id) : ∃ r ∈ recs, r.id = i := by
  rcases List.mem_map.mp h with ⟨r, hr, he⟩
  exact ⟨r, hr, he⟩

/-- After reconciliation, every record whose id has a live window is flagged
open (given pairwise-distinct ids). -/
theorem refreshRecs_open_true {i : String} {ws : List LiveWindow} {recs : List NoteRecord}
    (hnd : (recs.map NoteRecord.id).Nodup)
    (hex : ∃ w ∈ ws, w.alive = true ∧ w.note_id = i) :
    ∀ r' ∈ refreshRecs ws recs, r'.id = i → r'.is_open = true := by
  intro r' hr' hid
  unfold refreshRecs at hr'
  rcases List.mem_map.mp hr' with ⟨r0, hr0, he⟩
  have hid0 : r0.id = i := by
    by_cases hm : r0.id ∈ aliveIds ws
    · rw [if_pos hm] at he; rw [← he] at hid; exact hid
    · rw [if_neg hm] at he; rw [← he] at hid; exact hid
  have hm : r0.id ∈ aliveIds ws := by
    rw [hid0]; exact mem_aliveIds.mpr hex
  rw [if_pos hm] at he
  rw [← he]
  exact pullWindows_open_true ws recs hnd (hid0 ▸ hex) r0 hr0 rfl

/-- After reconciliation, every record whose id has no live window is flagged
closed. -/
theorem refreshRecs_closed_false {i : String} {ws : List LiveWindow} {recs : List NoteRecord}
    (hnex : i ∉ aliveIds ws) :
    ∀ r' ∈ refreshRecs ws recs, r'.id = i → r'.is_open = false := by
  intro r' hr' hid
  unfold refreshRecs at hr'
  rcases List.mem_map.mp hr' with ⟨r0, _, he⟩
  have hid0 : r0.id = i := by
    by_cases hm : r0.id ∈ aliveIds ws
    · rw [if_pos hm] at he; rw [← he] at hid; exact hid
    · rw [if_neg hm] at he; rw [← he] at hid; exact hid
  rw [if_neg (hid0 ▸ hnex)] at he
  rw [← he]

theorem save_notes_notes (s : AppState) : (save_notes s).notes = s.notes := rfl

theorem save_notes_saved (s : AppState) :
    (save_notes s).saved = refreshRecs s.notes s.all_notes := rfl

theorem save_notes_ids (s : AppState) :
    (save_notes s).all_notes.map NoteRecord.id = s.all_notes.map NoteRecord.id :=
  refreshRecs_ids s.notes s.all_notes

theorem update_note_in_list_notes (i : String) (s : AppState) :
    (update_note_in_list i s).notes = s.notes := by
  unfold update_note_in_list
  cases s.notes.find? (fun w => w.alive && w.note_id == i) with
  | none => rfl
  | some w => rfl

theorem update_note_in_list_saved (i : String) (s : AppState) :
    (update_note_in_list i s).saved = s.saved := by
  unfold update_note_in_list
  cases s.notes.find? (fun w => w.alive && w.note_id == i) with
  | none => rfl
  | some w => rfl

theorem update_note_in_list_ids (i : String) (s : AppState) :
    (update_note_in_list i s).all_notes.map NoteRecord.id = s.all_notes.map NoteRecord.id := by
  unfold update_note_in_list
  cases h : s.notes.find? (fun w => w.alive && w.note_id == i) with
  | none => rfl
  | some w =>
    have hid : (get_note_data w).id = i := by
      have := List.find?_some h
      simp only [Bool.and_eq_true, beq_iff_eq] at this
      rw [get_note_data_id, this.2]
    simp only [refresh_note_list]
    rw [refreshRecs_ids, replaceFirst_ids _ _ _ hid]

theorem update_closed_note_notes (d : NoteRecord) (s : AppState) :
    (update_closed_note d s).notes = s.notes := rfl

theorem update_closed_note_saved (d : NoteRecord) (s : AppState) :
    (update_closed_note d s).saved = s.saved := rfl

theorem update_closed_note_ids (d : NoteRecord) (s : AppState) :
    (update_closed_note d s).all_notes.map NoteRecord.id = s.all_notes.map NoteRecord.id := by
  unfold update_closed_note
  simp only [refresh_note_list]
  rw [refreshRecs_ids, replaceFirst_ids _ _ _ rfl]

theorem save_note_notes (i : Nat) (s : AppState) : (save_note i s).notes = s.notes := by
  unfold save_note
  cases s.notes.get? i with
  | none => rfl
  | some w => rw [update_note_in_list_notes, save_notes_notes]

theorem save_note_ids (i : Nat) (s : AppState) :
    (save_note i s).all_notes.map NoteRecord.id = s.all_notes.map NoteRecord.id := by
  unfold save_note
  cases s.notes.get? i with
  | none => rfl
  | some w => rw [update_note_in_list_ids, save_notes_ids]

theorem save_note_saved_of_get {i : Nat} {s : AppState} {w : LiveWindow}
    (hw : s.notes.get? i = some w) :
    (save_note i s).saved = refreshRecs s.notes s.all_notes := by
  unfold save_note
  rw [hw]
  rw [update_note_in_list_saved, save_notes_saved]

/-! ## Claim C9 -/

/-- Claim C9: in `on_close`, the save happens before the `is_open = false`
update and the reconcile inside `update_closed_note` re-pulls the
still-existing window, so immediately after `on_close` both the store record
and the snapshot just persisted still carry `is_open = true`; once the window
is destroyed (and no other live window shares the id), the next
`refresh_note_list` is what turns `is_open` false. -/
theorem c9_close_defers_is_open (s : AppState) (i : Nat) (w : LiveWindow)
    (hw : s.notes.get? i = some w) (ha : w.alive = true)
    (hr : w.note_id ∈ s.all_notes.map NoteRecord.id)
    (hnd : (s.all_notes.map NoteRecord.id).Nodup) :
    (∃ r ∈ (on_close i s).all_notes, r.id = w.note_id ∧ r.is_open = true) ∧
    (∃ r ∈ (on_close i s).saved, r.id = w.note_id ∧ r.is_open = true) ∧
    ((∀ (j : Nat) (w' : LiveWindow), s.notes.get? j = some w' → w'.alive = true →
        w'.note_id = w.note_id → j = i) →
      ∃ r ∈ (refresh_note_list (on_close i s)).all_notes,
        r.id = w.note_id ∧ r.is_open = false) := by
  have hwmem : w ∈ s.notes := List.get?_mem hw
  set d : NoteRecord := { get_note_data w with is_open := false, was_open := true } with hd
  set s2 : AppState := update_closed_note d (save_note i s) with hs2
  have hoc : on_close i s = { s2 with notes := s2.notes.set i { w with alive := false } } := by
    simp only [on_close, hw]
    rw [if_pos ha]
  have hn1 : (save_note i s).notes = s.notes := save_note_notes i s
  have hids1 : (save_note i s).all_notes.map NoteRecord.id = s.all_notes.map NoteRecord.id :=
    save_note_ids i s
  have hdid : d.id = d.id := rfl
  have hids2 : (on_close i s).all_notes.map NoteRecord.id = s.all_notes.map NoteRecord.id := by
    rw [hoc]
    show s2.all_notes.map NoteRecord.id = _
    rw [hs2, update_closed_note_ids, hids1]
  refine ⟨?_, ?_, ?_⟩
  · -- the store still says open
    have h2 : (on_close i s).all_notes =
        refreshRecs (save_note i s).notes (replaceFirst (save_note i s).all_notes d.id d) := by
      rw [hoc]
      show s2.all_notes = _
      rw [hs2]
      rfl
    have hndr : ((replaceFirst (save_note i s).all_notes d.id d).map NoteRecord.id).Nodup := by
      rw [replaceFirst_ids _ _ _ rfl, hids1]; exact hnd
    have hex : ∃ w0 ∈ (save_note i s).notes, w0.alive = true ∧ w0.note_id = w.note_id := by
      rw [hn1]; exact ⟨w, hwmem, ha, rfl⟩
    have hmm : w.note_id ∈ (on_close i s).all_notes.map NoteRecord.id := by rw [hids2]; exact hr
    rcases exists_of_mem_ids hmm with ⟨r, hrm, hri⟩
    refine ⟨r, hrm, hri, ?_⟩
    rw [h2] at hrm
    exact refreshRecs_open_true hndr hex r hrm hri
  · -- the persisted snapshot still says open
    have hsv : (on_close i s).saved = refreshRecs s.notes s.all_notes := by
      rw [hoc]
      show s2.saved = _
      rw [hs2, update_closed_note_saved, save_note_saved_of_get hw]
    have hmm : w.note_id ∈ (on_close i s).saved.map NoteRecord.id := by
      rw [hsv, refreshRecs_ids]; exact hr
    rcases exists_of_mem_ids hmm with ⟨r, hrm, hri⟩
    refine ⟨r, hrm, hri, ?_⟩
    rw [hsv] at hrm
    exact refreshRecs_open_true hnd ⟨w, hwmem, ha, rfl⟩ r hrm hri
  · -- after destruction, the next reconcile closes it
    intro honly
    have hnF : (on_close i s).notes = s.notes.set i { w with alive := false } := by
      rw [hoc]
      show s2.notes.set i { w with alive := false } = _
      rw [hs2, update_closed_note_notes, hn1]
    have hnex : w.note_id ∉ aliveIds (on_close i s).notes := by
      intro hmem
      rcases mem_aliveIds.mp hmem with ⟨w2, hw2, halive, hid⟩
      rw [hnF] at hw2
      rcases List.mem_iff_get?.mp hw2 with ⟨j, hj⟩
      by_cases hji : j = i
      · subst hji
        rw [List.get?_set_eq, hw] at hj
        simp at hj
        subst hj
        simp at halive
      · rw [List.get?_set_ne _ _ (fun h => hji h.symm)] at hj
        exact hji (honly j w2 hj halive hid)
    have hmm : w.note_id ∈ (refresh_note_list (on_close i s)).all_notes.map NoteRecord.id := by
      rw [refresh_ids, hids2]; exact hr
    rcases exists_of_mem_ids hmm with ⟨r, hrm, hri⟩
    exact ⟨r, hrm, hri, refreshRecs_closed_false hnex r hrm hri⟩

/-- Claim C9 witness: on the concrete one-note, one-live-window state, all
three conclusions instantiate. -/
theorem c9_close_defers_witness :
    (∃ r ∈ (on_close 0 stAW).all_notes, r.id = winA.note_id ∧ r.is_open = true) ∧
    (∃ r ∈ (on_close 0 stAW).saved, r.id = winA.note_id ∧ r.is_open = true) ∧
    (∃ r ∈ (refresh_note_list (on_close 0 stAW)).all_notes,
      r.id = winA.note_id ∧ r.is_open = false) := by
  have h := c9_close_defers_is_open stAW 0 winA (by decide) (by decide) (by decide) (by decide)
  refine ⟨h.1, h.2.1, h.2.2 ?_⟩
  intro j w' hj ha hid
  cases j with
  | zero => rfl
  | succ j => simp [stAW] at hj

/-! ## Claim C10 -/

/-- Claim C10 (amended): the three synchronizer update operations never add
or remove records — each preserves the length and the exact sequence of
record ids, mutating only field values — and `update_note_in_list` with no
matching live window leaves the state entirely unchanged.  (The original
claim's last clause is cut down by the counterexample below:
`update_closed_note`, and `update_note_in_list` when some live window
matches, always run the embedded `refresh_note_list`, which can rewrite
other records even when no record matches the given id.) -/
theorem c10_sync_frame :
    (∀ (s : AppState) (i : String),
        (update_note_in_list i s).all_notes.map NoteRecord.id = s.all_notes.map NoteRecord.id) ∧
    (∀ (s : AppState) (d : NoteRecord),
        (update_closed_note d s).all_notes.map NoteRecord.id = s.all_notes.map NoteRecord.id) ∧
    (∀ s : AppState,
        (refresh_note_list s).all_notes.map NoteRecord.id = s.all_notes.map NoteRecord.id) ∧
    (∀ (s : AppState) (i : String),
        s.notes.find? (fun w => w.alive && w.note_id == i) = none → update_note_in_list i s = s) := by
  refine ⟨fun s i => update_note_in_list_ids i s, fun s d => update_closed_note_ids d s,
    refresh_ids, ?_⟩
  intro s i h
  unfold update_note_in_list
  rw [h]

/-- Claim C10 witness: on the concrete windowless store, `update_note_in_list`
of an id with no live window is the identity. -/
theorem c10_sync_frame_witness :
    stB.notes.find? (fun w => w.alive && w.note_id == "A") = none ∧
    update_note_in_list "A" stB = stB :=
  ⟨by decide, c10_sync_frame.2.2.2 stB "A" (by decide)⟩

/-- Claim C10 counterexample: `update_closed_note` applied to data whose id
matches no record and no live window still changes the store — its embedded
`refresh_note_list` forces `is_open = false` on the unrelated record "B". -/
theorem c10_sync_frame_counterexample :
    stB.notes = [] ∧ findFirst stB.all_notes recA.id = none ∧
    (update_closed_note recA stB).all_notes ≠ stB.all_notes := by
  decide

/-! ## Id-sequence lemmas for the user-level operations -/

theorem findFirst_isSome {recs : List NoteRecord} {i : String} :
    (findFirst recs i).isSome ↔ i ∈ recs.map NoteRecord.id := by
  unfold findFirst
  rw [List.find?_isSome]
  constructor
  · rintro ⟨r, hr, he⟩
    rw [beq_iff_eq] at he
    exact he ▸ List.mem_map_of_mem NoteRecord.id hr
  · intro h
    rcases exists_of_mem_ids h with ⟨r, hr, he⟩
    exact ⟨r, hr, by rw [beq_iff_eq]; exact he⟩

theorem findFirst_mem {recs : List NoteRecord} {i : String} {r : NoteRecord}
    (h : findFirst recs i = some r) : r ∈ recs ∧ r.id = i := by
  refine ⟨List.mem_of_find?_eq_some h, ?_⟩
  have := List.find?_some h
  rwa [beq_iff_eq] at this

theorem create_new_note_data_ids {d : NoteRecord} {s : AppState}
    (h : d.id ∈ s.all_notes.map NoteRecord.id) :
    (create_new_note_data d s).all_notes.map NoteRecord.id = s.all_notes.map NoteRecord.id := by
  unfold create_new_note_data
  have hs : (s.all_notes.find? (fun r => r.id == d.id)).isSome := findFirst_isSome.mpr h
  simp only [refresh_note_list]
  rw [if_pos hs, refreshRecs_ids,
    replaceFirst_ids s.all_notes d.id (get_note_data (windowOf d)) rfl]

theorem create_new_note_blank_ids (t : String) (px py : Int) (s : AppState) :
    (create_new_note_blank t px py s).all_notes.map NoteRecord.id =
      s.all_notes.map NoteRecord.id ++ [t] := by
  unfold create_new_note_blank
  simp only [refresh_note_list]
  rw [refreshRecs_ids, List.map_append]
  rfl

theorem open_selected_note_ids (i : String) (s : AppState) :
    (open_selected_note i s).all_notes.map NoteRecord.id = s.all_notes.map NoteRecord.id := by
  unfold open_selected_note
  by_cases hb : (s.notes.find? (fun w => w.alive && w.note_id == i)).isSome
  · rw [if_pos hb]
  · rw [if_neg hb]
    cases hf : findFirst s.all_notes i with
    | none => rfl
    | some r =>
      rcases findFirst_mem hf with ⟨hrm, hri⟩
      subst hri
      have h1 : (replaceFirst s.all_notes r.id { r with is_open := true }).map NoteRecord.id =
          s.all_notes.map NoteRecord.id := replaceFirst_ids _ _ _ rfl
      have hmem : ({ r with is_open := true } : NoteRecord).id ∈
          (replaceFirst s.all_notes r.id { r with is_open := true }).map NoteRecord.id := by
        show r.id ∈ _
        rw [h1]
        exact List.mem_map_of_mem NoteRecord.id hrm
      rw [create_new_note_data_ids (d := { r with is_open := true })
        (s := { s with all_notes := replaceFirst s.all_notes r.id { r with is_open := true } })
        hmem]
      exact h1

theorem on_close_eq_none {i : Nat} {s : AppState} (hw : s.notes.get? i = none) :
    on_close i s = s := by
  simp only [on_close, hw]

theorem on_close_eq_dead {i : Nat} {s : AppState} {w : LiveWindow}
    (hw : s.notes.get? i = some w) (ha : ¬ w.alive = true) : on_close i s = s := by
  simp only [on_close, hw]
  rw [if_neg ha]

theorem on_close_eq_live {i : Nat} {s : AppState} {w : LiveWindow}
    (hw : s.notes.get? i = some w) (ha : w.alive = true) :
    on_close i s =
      { update_closed_note { get_note_data w with is_open := false, was_open := true }
          (save_note i s) with
        notes := (update_closed_note { get_note_data w with is_open := false, was_open := true }
          (save_note i s)).notes.set i { w with alive := false } } := by
  simp only [on_close, hw]
  rw [if_pos ha]

theorem on_close_ids (i : Nat) (s : AppState) :
    (on_close i s).all_notes.map NoteRecord.id = s.all_notes.map NoteRecord.id := by
  cases hw : s.notes.get? i with
  | none => rw [on_close_eq_none hw]
  | some w =>
    by_cases ha : w.alive = true
    · rw [on_close_eq_live hw ha]
      show (update_closed_note _ (save_note i s)).all_notes.map NoteRecord.id = _
      rw [update_closed_note_ids, save_note_ids]
    · rw [on_close_eq_dead hw ha]

theorem change_selected_note_color_ids (i c : String) (s : AppState) :
    (change_selected_note_color i c s).all_notes.map NoteRecord.id =
      s.all_notes.map NoteRecord.id := by
  unfold change_selected_note_color
  cases hf : findFirst s.all_notes i with
  | none => rfl
  | some r =>
    rcases findFirst_mem hf with ⟨_, hri⟩
    simp only [refresh_note_list]
    rw [refreshRecs_ids]
    show (save_notes _).all_notes.map NoteRecord.id = _
    rw [save_notes_ids]
    exact replaceFirst_ids _ _ _ hri

theorem exitFold_ids (ws : List LiveWindow) :
    ∀ recs : List NoteRecord,
      (ws.foldl (fun acc w => if w.alive then markWasOpen acc w.note_id else acc) recs).map
          NoteRecord.id = recs.map NoteRecord.id := by
  induction ws with
  | nil => intro recs; rfl
  | cons w ws ih =>
    intro recs
    rw [List.foldl_cons]
    by_cases hw : w.alive = true
    · rw [if_pos hw, ih, markWasOpen_ids]
    · rw [if_neg hw, ih]

theorem on_exit_ids (s : AppState) :
    (on_exit s).all_notes.map NoteRecord.id = s.all_notes.map NoteRecord.id := by
  unfold on_exit
  rw [save_notes_ids]
  exact exitFold_ids s.notes s.all_notes

theorem on_resize_all_notes (i : Nat) (dx dy : Int) (s : AppState) :
    (on_resize i dx dy s).all_notes = s.all_notes := by
  cases hg : s.notes.get? i with
  | none => simp only [on_resize, hg]
  | some w =>
    by_cases hw : w.alive = true
    · simp only [on_resize, hg]
      rw [if_pos hw]
    · simp only [on_resize, hg]
      rw [if_neg hw]

theorem type_text_all_notes (i : Nat) (t : String) (s : AppState) :
    (type_text i t s).all_notes = s.all_notes := by
  cases hg : s.notes.get? i with
  | none => simp only [type_text, hg]
  | some w =>
    by_cases hw : w.alive = true
    · simp only [type_text, hg]
      rw [if_pos hw]
    · simp only [type_text, hg]
      rw [if_neg hw]

theorem createFold_ids (ds : List NoteRecord) :
    ∀ s : AppState, (∀ d ∈ ds, d.id ∈ s.all_notes.map NoteRecord.id) →
      ((ds.foldl (fun acc d => create_new_note_data d acc) s)).all_notes.map NoteRecord.id =
        s.all_notes.map NoteRecord.id := by
  induction ds with
  | nil => intro s _; rfl
  | cons d ds ih =>
    intro s h
    rw [List.foldl_cons]
    have hstep : (create_new_note_data d s).all_notes.map NoteRecord.id =
        s.all_notes.map NoteRecord.id :=
      create_new_note_data_ids (h d (List.mem_cons_self d ds))
    rw [ih (create_new_note_data d s) (fun d' hd' => hstep ▸ h d' (List.mem_cons_of_mem d hd')),
      hstep]

theorem load_notes_ids (L : List NoteRecord) (s : AppState) :
    (load_notes L s).all_notes.map NoteRecord.id = L.map NoteRecord.id := by
  unfold load_notes
  have h1 : (refresh_note_list { s with all_notes := L }).all_notes.map NoteRecord.id =
      L.map NoteRecord.id := refresh_ids { s with all_notes := L }
  rw [createFold_ids]
  · exact h1
  · intro d hd
    rw [h1.symm] at *
    exact List.mem_map_of_mem NoteRecord.id (List.mem_of_mem_filter hd)

theorem delete_selected_note_ids (i : String) (s : AppState) :
    (delete_selected_note i s).all_notes.map NoteRecord.id =
      (eraseFirst s.all_notes i).map NoteRecord.id := by
  unfold delete_selected_note
  rw [refresh_ids, save_notes_ids]

/-! ## Claim C3 -/

/-- Claim C3 (amended): every user-level operation preserves uniqueness of
record ids, provided its own id input does not collide — a blank creation
whose fresh timestamp id is genuinely fresh, a loaded file without duplicate
ids.  The proviso is forced by the counterexample below: `create_new_note()`
without note data appends unconditionally, so a blank creation under an
already-present timestamp id yields two records with the same id instead of
overwriting (only `create_new_note(note_data)` — the open/load path —
overwrites on collision). -/
theorem c3_unique_ids_amended (op : Op) (s : AppState)
    (hnd : (s.all_notes.map NoteRecord.id).Nodup) (hf : opFresh op s) :
    ((applyOp op s).all_notes.map NoteRecord.id).Nodup := by
  cases op with
  | createBlank t px py =>
    show ((create_new_note_blank t px py s).all_notes.map NoteRecord.id).Nodup
    rw [create_new_note_blank_ids, List.nodup_append]
    refine ⟨hnd, List.nodup_singleton t, ?_⟩
    intro a ha hb
    rw [List.mem_singleton] at hb
    subst hb
    exact hf ha
  | openSelected i =>
    show ((open_selected_note i s).all_notes.map NoteRecord.id).Nodup
    rw [open_selected_note_ids]; exact hnd
  | focusOut i =>
    show ((save_note i s).all_notes.map NoteRecord.id).Nodup
    rw [save_note_ids]; exact hnd
  | closeWin i =>
    show ((on_close i s).all_notes.map NoteRecord.id).Nodup
    rw [on_close_ids]; exact hnd
  | recolor i c =>
    show ((change_selected_note_color i c s).all_notes.map NoteRecord.id).Nodup
    rw [change_selected_note_color_ids]; exact hnd
  | refreshList =>
    show ((refresh_note_list s).all_notes.map NoteRecord.id).Nodup
    rw [refresh_ids]; exact hnd
  | saveAll =>
    show ((save_notes s).all_notes.map NoteRecord.id).Nodup
    rw [save_notes_ids]; exact hnd
  | exitApp =>
    show ((on_exit s).all_notes.map NoteRecord.id).Nodup
    rw [on_exit_ids]; exact hnd
  | deleteNote i =>
    show ((delete_selected_note i s).all_notes.map NoteRecord.id).Nodup
    rw [delete_selected_note_ids]
    exact hnd.sublist ((eraseFirst_sublist s.all_notes i).map NoteRecord.id)
  | resizeWin i dx dy =>
    show ((on_resize i dx dy s).all_notes.map NoteRecord.id).Nodup
    rw [on_resize_all_notes]; exact hnd
  | setText i t =>
    show ((type_text i t s).all_notes.map NoteRecord.id).Nodup
    rw [type_text_all_notes]; exact hnd
  | loadFile L =>
    show ((load_notes L s).all_notes.map NoteRecord.id).Nodup
    rw [load_notes_ids]; exact hf

/-- Claim C3 witness: a blank creation under a fresh id on the concrete
one-record store keeps the ids pairwise distinct. -/
theorem c3_unique_ids_witness :
    ((applyOp (.createBlank "C" 0 0) stA).all_notes.map NoteRecord.id).Nodup :=
  c3_unique_ids_amended (.createBlank "C" 0 0) stA (by decide)
    (by show "C" ∉ stA.all_notes.map NoteRecord.id; decide)

/-- Claim C3 counterexample: on a store already holding a record with id "A",
a blank creation whose freshly allocated timestamp id is also "A" appends a
second record — the store ends with ids ["A", "A"], the existing record is
not overwritten, and uniqueness is broken. -/
theorem c3_unique_ids_counterexample :
    recA ∈ stA.all_notes ∧
    (applyOp (.createBlank "A" 0 0) stA).all_notes.map NoteRecord.id = ["A", "A"] ∧
    ¬ ((applyOp (.createBlank "A" 0 0) stA).all_notes.map NoteRecord.id).Nodup := by
  decide

/-! ## Claim C4 -/

theorem refreshRecs_no_windows (recs : List NoteRecord) :
    refreshRecs [] recs = recs.map (fun r => { r with is_open := false }) := by
  unfold refreshRecs
  rw [pullWindows_nil]
  apply List.map_congr_left
  intro r _
  have : r.id ∉ aliveIds ([] : List LiveWindow) := by simp [aliveIds]
  rw [if_neg this]

theorem create_new_note_data_notes (d : NoteRecord) (s : AppState) :
    (create_new_note_data d s).notes = s.notes ++ [windowOf d] := rfl

theorem createFold_notes (ds : List NoteRecord) :
    ∀ s : AppState,
      ((ds.foldl (fun acc d => create_new_note_data d acc) s)).notes =
        s.notes ++ ds.map windowOf := by
  induction ds with
  | nil => intro s; simp
  | cons d ds ih =>
    intro s
    rw [List.foldl_cons, ih, create_new_note_data_notes]
    simp

/-- Claim C4 (amended): after `load_notes` on file contents `L`, the live
windows are exactly one per record of `L` with `was_open = true`, in file
order — and only those.  A record with `is_open = true` but
`was_open = false` gets no window, because `load_notes` runs
`refresh_note_list()` (with no windows yet) before computing the reopen
list, which forces every `is_open` to false; only `was_open` survives to the
`is_open or was_open` test.  On every file the app itself writes,
`is_open = true` entails `was_open = true`, so the two policies coincide
there; the claim as stated fails only on the hand-written file of the
counterexample below. -/
theorem c4_load_reopens_was_open (L : List NoteRecord) :
    (applyOp (.loadFile L) initState).notes.map LiveWindow.note_id =
      (L.filter (fun r => r.was_open)).map NoteRecord.id ∧
    ∀ w ∈ (applyOp (.loadFile L) initState).notes, w.alive = true := by
  have hnotes : (applyOp (.loadFile L) initState).notes =
      ((refreshRecs [] L).filter (fun r => r.is_open || r.was_open)).map windowOf := by
    show (load_notes L initState).notes = _
    unfold load_notes
    rw [createFold_notes]
    rfl
  constructor
  · rw [hnotes, refreshRecs_no_windows, List.filter_map]
    simp only [List.map_map]
    have hp : ((fun r : NoteRecord => r.is_open || r.was_open) ∘
          (fun r : NoteRecord => { r with is_open := false })) =
        fun r : NoteRecord => r.was_open := by
      funext r
      simp
    rw [hp]
    apply List.map_congr_left
    intro r _
    rfl
  · intro w hw
    rw [hnotes] at hw
    rcases List.mem_map.mp hw with ⟨r, _, he⟩
    rw [← he]
    rfl

/-- Claim C4 witness: loading the spec's scenario store — one record with
`was_open = true`, `is_open = false` — yields exactly one live window, for
that record. -/
theorem c4_load_witness :
    (applyOp (.loadFile [recA]) initState).notes.map LiveWindow.note_id = ["A"] ∧
    ∀ w ∈ (applyOp (.loadFile [recA]) initState).notes, w.alive = true := by
  have h := c4_load_reopens_was_open [recA]
  refine ⟨?_, h.2⟩
  rw [h.1]
  decide

/-- Claim C4 counterexample: loading a store whose only record has
`is_open = true` but `was_open = false` instantiates no window at all,
although the claim requires one for every record with `is_open` or
`was_open` set. -/
theorem c4_load_counterexample :
    recOpenOnly.is_open = true ∧
    (applyOp (.loadFile [recOpenOnly]) initState).notes = [] := by
  decide

/-! ## Claim C6 -/

/-- Claim C6 (amended): the main app's preview is a pure function of the
store, the selection and the previous pane content.  With no selection the
pane is cleared (empty text on white); with a selection whose id is found it
shows that record's text and color; with a selection whose id is not found it
keeps its previous content unchanged — it is not cleared, contrary to the
original claim.  The `PreviewPanelComponent` variant, by contrast, does clear
when handed no note. -/
theorem c6_preview_projection (recs : List NoteRecord) (sel : Option String)
    (prev : PreviewState) :
    (sel = none → update_preview recs sel prev = { text := "", color := "white" }) ∧
    (∀ (i : String) (r : NoteRecord), sel = some i → findFirst recs i = some r →
      update_preview recs sel prev = { text := r.text, color := r.color }) ∧
    (∀ i : String, sel = some i → findFirst recs i = none →
      update_preview recs sel prev = prev) ∧
    component_update_preview none = { text := "", color := "white" } ∧
    (∀ n : NoteRecord, component_update_preview (some n) = { text := n.text, color := n.color }) := by
  refine ⟨?_, ?_, ?_, rfl, fun n => rfl⟩
  · intro h
    rw [h]
    rfl
  · intro i r hs hf
    rw [hs]
    show (match findFirst recs i with
          | none => prev
          | some r0 => { text := r0.text, color := r0.color }) = _
    rw [hf]
  · intro i hs hf
    rw [hs]
    show (match findFirst recs i with
          | none => prev
          | some r0 => { text := r0.text, color := r0.color }) = _
    rw [hf]

/-- Claim C6 witness: the amended theorem instantiated on a concrete store:
found id shows the record, missing id keeps the stale pane. -/
theorem c6_preview_witness :
    update_preview [recB] (some "B") prevStale = { text := recB.text, color := recB.color } ∧
    update_preview [recB] (some "A") prevStale = prevStale :=
  ⟨(c6_preview_projection [recB] (some "B") prevStale).2.1 "B" recB rfl (by decide),
   (c6_preview_projection [recB] (some "A") prevStale).2.2.1 "A" rfl (by decide)⟩

/-- Claim C6 counterexample: with a selection whose id is absent from the
store, the pane is left with its previous content rather than the
empty/cleared payload the claim requires — so the projection also depends on
the previous pane state, not on (store, selected id) alone. -/
theorem c6_preview_counterexample :
    update_preview [] (some "Z") prevStale = prevStale ∧
    prevStale ≠ { text := "", color := "white" } ∧
    update_preview [] (some "Z") prevStale ≠
      update_preview [] (some "Z") { text := "", color := "white" } := by
  decide

/-! ## Claim C7 -/

theorem filter_notes_foldl (q : String) (recs : List NoteRecord) :
    ∀ acc : List RowData,
      recs.foldl (fun acc r => if matchesQuery q r then acc ++ [mkRow r] else acc) acc =
        acc ++ (recs.filter (matchesQuery q)).map mkRow := by
  induction recs with
  | nil => intro acc; simp
  | cons r rs ih =>
    intro acc
    rw [List.foldl_cons]
    by_cases h : matchesQuery q r
    · rw [if_pos h, ih, List.filter_cons_of_pos h]
      simp
    · rw [if_neg h, ih, List.filter_cons_of_neg h]

theorem pySubstr_empty (hay : String) : pySubstr "" hay = true := by
  unfold pySubstr
  rw [decide_eq_true_eq]
  exact List.nil_infix

/-- Claim C7: the rows built by `filter_notes` are exactly one row per record
matching the search (lowercased search a substring of the lowercased id or
text), in store order; the empty search matches every record in store order;
and a search matching only a record's text still yields that record's row. -/
theorem c7_filter_view (q : String) (recs : List NoteRecord) :
    filter_notes q recs = (recs.filter (matchesQuery q)).map mkRow ∧
    filter_notes "" recs = recs.map mkRow ∧
    ∀ r ∈ recs, pySubstr (pyLower q) (pyLower r.text) = true → mkRow r ∈ filter_notes q recs := by
  have hmain : ∀ p : String, filter_notes p recs = (recs.filter (matchesQuery p)).map mkRow := by
    intro p
    unfold filter_notes
    rw [filter_notes_foldl]
    rfl
  refine ⟨hmain q, ?_, ?_⟩
  · rw [hmain ""]
    have : recs.filter (matchesQuery "") = recs := by
      apply List.filter_eq_self.mpr
      intro r _
      unfold matchesQuery
      have : pyLower "" = "" := rfl
      rw [this, pySubstr_empty, Bool.true_or]
    rw [this]
  · intro r hr htext
    rw [hmain q]
    have hm : matchesQuery q r = true := by
      unfold matchesQuery
      rw [htext, Bool.or_true]
    exact List.mem_map_of_mem mkRow (List.mem_filter.mpr ⟨hr, hm⟩)

/-- Claim C7 witness: the query "hello" occurs only in the concrete record's
text (its id is "B"), yet its row is produced; the empty query lists the
store. -/
theorem c7_filter_witness :
    mkRow { recB with text := "Say Hello" } ∈
      filter_notes "hello" [{ recB with text := "Say Hello" }] ∧
    filter_notes "" [recB] = [recB].map mkRow := by
  constructor
  · exact (c7_filter_view "hello" [{ recB with text := "Say Hello" }]).2.2
      { recB with text := "Say Hello" } (by decide) (by decide)
  · exact (c7_filter_view "" [recB]).2.1

/-! ## Claim C5 -/

theorem nfi_refl (recs : List NoteRecord) : NoFalseIntro recs recs :=
  fun r' hr' hf => ⟨r', hr', rfl, hf⟩

theorem nfi_trans {a b c : List NoteRecord} (h1 : NoFalseIntro a b) (h2 : NoFalseIntro b c) :
    NoFalseIntro a c := by
  intro r' hr' hf
  rcases h2 r' hr' hf with ⟨r1, hr1, hid1, hf1⟩
  rcases h1 r1 hr1 hf1 with ⟨r0, hr0, hid0, hf0⟩
  exact ⟨r0, hr0, hid0.trans hid1, hf0⟩

theorem nfi_of_sub {a b : List NoteRecord} (h : ∀ r ∈ b, r ∈ a) : NoFalseIntro a b :=
  fun r' hr' hf => ⟨r', h r' hr', rfl, hf⟩

theorem nfi_replaceFirst {recs : List NoteRecord} {i : String} {d : NoteRecord}
    (hd : d.was_open = false → ∃ r ∈ recs, r.id = d.id ∧ r.was_open = false) :
    NoFalseIntro recs (replaceFirst recs i d) := by
  intro r' hr' hf
  rcases replaceFirst_mem hr' with h | h
  · exact ⟨r', h, rfl, hf⟩
  · subst h
    exact hd hf

theorem nfi_append_true {recs : List NoteRecord} {d : NoteRecord} (hd : d.was_open = true) :
    NoFalseIntro recs (recs ++ [d]) := by
  intro r' hr' hf
  rcases List.mem_append.mp hr' with h | h
  · exact ⟨r', h, rfl, hf⟩
  · rw [List.mem_singleton] at h
    subst h
    rw [hd] at hf
    cases hf

theorem nfi_refreshRecs (ws : List LiveWindow) (recs : List NoteRecord) :
    NoFalseIntro recs (refreshRecs ws recs) := by
  intro r' hr' hf
  rcases refreshRecs_mem hr' with ⟨r0, hsrc, hcl⟩
  have hw : r'.was_open = r0.was_open := by
    rcases hcl with h | h
    · rw [h]
    · rw [h]
  have hi : r'.id = r0.id := by
    rcases hcl with h | h
    · rw [h]
    · rw [h]
  rcases hsrc with h | ⟨w, _, _, he⟩
  · exact ⟨r0, h, hi.symm, by rw [← hw]; exact hf⟩
  · exfalso
    rw [hw, he] at hf
    cases hf

theorem nfi_refresh_state (s : AppState) :
    NoFalseIntro s.all_notes (refresh_note_list s).all_notes :=
  nfi_refreshRecs s.notes s.all_notes

theorem nfi_save_notes (s : AppState) :
    NoFalseIntro s.all_notes (save_notes s).all_notes :=
  nfi_refreshRecs s.notes s.all_notes

theorem nfi_update_note_in_list (i : String) (s : AppState) :
    NoFalseIntro s.all_notes (update_note_in_list i s).all_notes := by
  unfold update_note_in_list
  cases s.notes.find? (fun w => w.alive && w.note_id == i) with
  | none => exact nfi_refl s.all_notes
  | some w =>
    exact nfi_trans
      (nfi_replaceFirst (fun hfd => absurd (get_note_data_was_open w) (by rw [hfd]; decide)))
      (nfi_refreshRecs _ _)

theorem nfi_update_closed_note {d : NoteRecord} (hd : d.was_open = true) (s : AppState) :
    NoFalseIntro s.all_notes (update_closed_note d s).all_notes :=
  nfi_trans (nfi_replaceFirst (fun hfd => absurd hd (by rw [hfd]; decide)))
    (nfi_refreshRecs _ _)

theorem nfi_save_note (i : Nat) (s : AppState) :
    NoFalseIntro s.all_notes (save_note i s).all_notes := by
  unfold save_note
  cases s.notes.get? i with
  | none => exact nfi_refl s.all_notes
  | some w => exact nfi_trans (nfi_save_notes s) (nfi_update_note_in_list w.note_id (save_notes s))

theorem nfi_on_close (i : Nat) (s : AppState) :
    NoFalseIntro s.all_notes (on_close i s).all_notes := by
  cases hw : s.notes.get? i with
  | none => rw [on_close_eq_none hw]; exact nfi_refl s.all_notes
  | some w =>
    by_cases ha : w.alive = true
    · rw [on_close_eq_live hw ha]
      show NoFalseIntro s.all_notes (update_closed_note _ (save_note i s)).all_notes
      exact nfi_trans (nfi_save_note i s) (nfi_update_closed_note rfl (save_note i s))
    · rw [on_close_eq_dead hw ha]; exact nfi_refl s.all_notes

theorem nfi_create_new_note_data (d : NoteRecord) (s : AppState) :
    NoFalseIntro s.all_notes (create_new_note_data d s).all_notes := by
  simp only [create_new_note_data]
  by_cases hs : (s.all_notes.find? (fun r => r.id == d.id)).isSome
  · rw [if_pos hs]
    exact nfi_trans
      (nfi_replaceFirst (fun hfd =>
        absurd (get_note_data_was_open (windowOf d)) (by rw [hfd]; decide)))
      (nfi_refreshRecs _ _)
  · rw [if_neg hs]
    exact nfi_trans (nfi_append_true (get_note_data_was_open (windowOf d)))
      (nfi_refreshRecs _ _)

theorem nfi_createFold (ds : List NoteRecord) :
    ∀ s : AppState,
      NoFalseIntro s.all_notes
        ((ds.foldl (fun acc d => create_new_note_data d acc) s)).all_notes := by
  induction ds with
  | nil => intro s; exact nfi_refl s.all_notes
  | cons d ds ih =>
    intro s
    rw [List.foldl_cons]
    exact nfi_trans (nfi_create_new_note_data d s) (ih (create_new_note_data d s))

theorem nfi_markWasOpen (recs : List NoteRecord) (i : String) :
    NoFalseIntro recs (markWasOpen recs i) := by
  intro r' hr' hf
  rcases markWasOpen_mem hr' with h | ⟨r0, hr0, he⟩
  · exact ⟨r', h, rfl, hf⟩
  · exfalso
    rw [he] at hf
    cases hf

theorem nfi_exitFold (ws : List LiveWindow) :
    ∀ recs : List NoteRecord,
      NoFalseIntro recs
        (ws.foldl (fun acc w => if w.alive then markWasOpen acc w.note_id else acc) recs) := by
  induction ws with
  | nil => intro recs; exact nfi_refl recs
  | cons w ws ih =>
    intro recs
    rw [List.foldl_cons]
    by_cases hw : w.alive = true
    · rw [if_pos hw]
      exact nfi_trans (nfi_markWasOpen recs w.note_id) (ih (markWasOpen recs w.note_id))
    · rw [if_neg hw]
      exact ih recs

/-- Claim C5: `was_open` is monotone.  First conjunct: for every non-load
user-level operation, any record with `was_open = false` in the result store
traces back to a record with the same id already carrying `was_open = false`
— no operation ever resets the flag (deletion removes the record entirely,
which is the only way it disappears).  Second conjunct: even the startup
load, run from the program's initial (empty) state as the code does, never
invents a cleared flag — a `was_open = false` record in the loaded store
comes verbatim from the file. -/
theorem c5_was_open_monotone :
    (∀ (op : Op) (s : AppState), op.isLoad = false →
      NoFalseIntro s.all_notes (applyOp op s).all_notes) ∧
    (∀ L : List NoteRecord, NoFalseIntro L (applyOp (.loadFile L) initState).all_notes) := by
  constructor
  · intro op s hnl
    cases op with
    | createBlank t px py =>
      show NoFalseIntro s.all_notes (create_new_note_blank t px py s).all_notes
      unfold create_new_note_blank
      exact nfi_trans (nfi_append_true rfl) (nfi_refreshRecs _ _)
    | openSelected i =>
      show NoFalseIntro s.all_notes (open_selected_note i s).all_notes
      unfold open_selected_note
      by_cases hb : (s.notes.find? (fun w => w.alive && w.note_id == i)).isSome
      · rw [if_pos hb]; exact nfi_refl s.all_notes
      · rw [if_neg hb]
        cases hf : findFirst s.all_notes i with
        | none => exact nfi_refl s.all_notes
        | some r =>
          rcases findFirst_mem hf with ⟨hrm, hri⟩
          refine nfi_trans (nfi_replaceFirst ?_) (nfi_create_new_note_data _ _)
          intro hfd
          exact ⟨r, hrm, rfl, hfd⟩
    | focusOut i => exact nfi_save_note i s
    | closeWin i => exact nfi_on_close i s
    | recolor i c =>
      show NoFalseIntro s.all_notes (change_selected_note_color i c s).all_notes
      unfold change_selected_note_color
      cases hf : findFirst s.all_notes i with
      | none => exact nfi_refl s.all_notes
      | some r =>
        rcases findFirst_mem hf with ⟨hrm, hri⟩
        refine nfi_trans (nfi_replaceFirst ?_) (nfi_trans (nfi_save_notes _) (nfi_refresh_state _))
        intro hfd
        exact ⟨r, hrm, rfl, hfd⟩
    | refreshList => exact nfi_refresh_state s
    | saveAll => exact nfi_save_notes s
    | exitApp =>
      show NoFalseIntro s.all_notes (on_exit s).all_notes
      unfold on_exit
      exact nfi_trans (nfi_exitFold s.notes s.all_notes) (nfi_save_notes _)
    | deleteNote i =>
      show NoFalseIntro s.all_notes (delete_selected_note i s).all_notes
      unfold delete_selected_note
      refine nfi_trans (nfi_of_sub ?_) (nfi_trans (nfi_save_notes _) (nfi_refresh_state _))
      intro r hr
      exact (eraseFirst_sublist s.all_notes i).mem hr
    | resizeWin i dx dy =>
      show NoFalseIntro s.all_notes (on_resize i dx dy s).all_notes
      rw [on_resize_all_notes]
      exact nfi_refl s.all_notes
    | setText i t =>
      show NoFalseIntro s.all_notes (type_text i t s).all_notes
      rw [type_text_all_notes]
      exact nfi_refl s.all_notes
    | loadFile L => cases hnl
  · intro L
    show NoFalseIntro L (load_notes L initState).all_notes
    unfold load_notes
    refine nfi_trans (b := (refresh_note_list { initState with all_notes := L }).all_notes) ?_
      (nfi_createFold _ _)
    exact nfi_refreshRecs _ L

/-- Claim C5 witness: a reconcile on a concrete store never clears
`was_open`: the one cleared flag found afterwards was already cleared before,
on the record with the same id. -/
theorem c5_was_open_witness :
    ∃ r ∈ ({ all_notes := [{ recB with was_open := false }], notes := [], saved := [] }
        : AppState).all_notes,
      r.id = ({ recB with is_open := false, was_open := false } : NoteRecord).id ∧
        r.was_open = false :=
  c5_was_open_monotone.1 .refreshList
    { all_notes := [{ recB with was_open := false }], notes := [], saved := [] } rfl
    { recB with is_open := false, was_open := false } (by decide) rfl

/-! ## Claim C8 -/

theorem boundedWins_append {a b : List LiveWindow} (ha : boundedWins a) (hb : boundedWins b) :
    boundedWins (a ++ b) := by
  intro w hw
  rcases List.mem_append.mp hw with h | h
  · exact ha w h
  · exact hb w h

theorem boundedWins_of_sub {a b : List LiveWindow} (h : ∀ w ∈ b, w ∈ a) (ha : boundedWins a) :
    boundedWins b := fun w hw => ha w (h w hw)

theorem boundedWins_set {ws : List LiveWindow} {i : Nat} {w' : LiveWindow}
    (hb : boundedWins ws) (hw : 100 ≤ w'.width ∧ 100 ≤ w'.height) :
    boundedWins (ws.set i w') := by
  intro w hmem
  rcases List.mem_or_eq_of_mem_set hmem with h | h
  · exact hb w h
  · rw [h]; exact hw

theorem boundedRecs_of_sub {a b : List NoteRecord} (h : ∀ r ∈ b, r ∈ a) (ha : boundedRecs a) :
    boundedRecs b := fun r hr => ha r (h r hr)

theorem bounded_get_note_data {w : LiveWindow} (hw : 100 ≤ w.width ∧ 100 ≤ w.height) :
    100 ≤ (get_note_data w).width ∧ 100 ≤ (get_note_data w).height := hw

theorem bounded_windowOf {d : NoteRecord} (hd : 100 ≤ d.width ∧ 100 ≤ d.height) :
    100 ≤ (windowOf d).width ∧ 100 ≤ (windowOf d).height := hd

theorem boundedRecs_replaceFirst {recs : List NoteRecord} {i : String} {d : NoteRecord}
    (hb : boundedRecs recs) (hd : 100 ≤ d.width ∧ 100 ≤ d.height) :
    boundedRecs (replaceFirst recs i d) := by
  intro r hr
  rcases replaceFirst_mem hr with h | h
  · exact hb r h
  · rw [h]; exact hd

theorem boundedRecs_append {recs : List NoteRecord} {d : NoteRecord}
    (hb : boundedRecs recs) (hd : 100 ≤ d.width ∧ 100 ≤ d.height) :
    boundedRecs (recs ++ [d]) := by
  intro r hr
  rcases List.mem_append.mp hr with h | h
  · exact hb r h
  · rw [List.mem_singleton] at h
    rw [h]; exact hd

theorem boundedRecs_refreshRecs {ws : List LiveWindow} {recs : List NoteRecord}
    (hb : boundedRecs recs) (hws : boundedWins ws) : boundedRecs (refreshRecs ws recs) := by
  intro r hr
  rcases refreshRecs_mem hr with ⟨r0, hsrc, hcl⟩
  have hdim : 100 ≤ r0.width ∧ 100 ≤ r0.height := by
    rcases hsrc with h | ⟨w, hwm, _, he⟩
    · exact hb r0 h
    · rw [he]; exact bounded_get_note_data (hws w hwm)
  rcases hcl with h | h
  · rw [h]; exact hdim
  · rw [h]; exact hdim

theorem bounded_refresh {s : AppState} (h : boundedState s) :
    boundedState (refresh_note_list s) :=
  ⟨boundedRecs_refreshRecs h.1 h.2, h.2⟩

theorem bounded_save_notes {s : AppState} (h : boundedState s) : boundedState (save_notes s) :=
  ⟨boundedRecs_refreshRecs h.1 h.2, h.2⟩

theorem bounded_update_note_in_list (i : String) {s : AppState} (h : boundedState s) :
    boundedState (update_note_in_list i s) := by
  unfold update_note_in_list
  cases hf : s.notes.find? (fun w => w.alive && w.note_id == i) with
  | none => exact h
  | some w =>
    have hw : 100 ≤ w.width ∧ 100 ≤ w.height := h.2 w (List.mem_of_find?_eq_some hf)
    exact bounded_refresh ⟨boundedRecs_replaceFirst h.1 (bounded_get_note_data hw), h.2⟩

theorem bounded_update_closed_note {d : NoteRecord} (hd : 100 ≤ d.width ∧ 100 ≤ d.height)
    {s : AppState} (h : boundedState s) : boundedState (update_closed_note d s) :=
  bounded_refresh ⟨boundedRecs_replaceFirst h.1 hd, h.2⟩

theorem bounded_save_note (i : Nat) {s : AppState} (h : boundedState s) :
    boundedState (save_note i s) := by
  unfold save_note
  cases s.notes.get? i with
  | none => exact h
  | some w => exact bounded_update_note_in_list w.note_id (bounded_save_notes h)

theorem bounded_on_close (i : Nat) {s : AppState} (h : boundedState s) :
    boundedState (on_close i s) := by
  cases hw : s.notes.get? i with
  | none => rw [on_close_eq_none hw]; exact h
  | some w =>
    by_cases ha : w.alive = true
    · rw [on_close_eq_live hw ha]
      have hwb : 100 ≤ w.width ∧ 100 ≤ w.height := h.2 w (List.get?_mem hw)
      have h2 : boundedState (update_closed_note
          { get_note_data w with is_open := false, was_open := true } (save_note i s)) :=
        bounded_update_closed_note hwb (bounded_save_note i h)
      exact ⟨h2.1, boundedWins_set h2.2 hwb⟩
    · rw [on_close_eq_dead hw ha]; exact h

theorem bounded_create_new_note_data {d : NoteRecord} (hd : 100 ≤ d.width ∧ 100 ≤ d.height)
    {s : AppState} (h : boundedState s) : boundedState (create_new_note_data d s) := by
  simp only [create_new_note_data]
  have hwins : boundedWins (s.notes ++ [windowOf d]) :=
    boundedWins_append h.2 (by
      intro w hw
      rw [List.mem_singleton] at hw
      rw [hw]
      exact bounded_windowOf hd)
  by_cases hs : (s.all_notes.find? (fun r => r.id == d.id)).isSome
  · rw [if_pos hs]
    exact bounded_refresh
      ⟨boundedRecs_replaceFirst h.1 (bounded_get_note_data (bounded_windowOf hd)), hwins⟩
  · rw [if_neg hs]
    exact bounded_refresh
      ⟨boundedRecs_append h.1 (bounded_get_note_data (bounded_windowOf hd)), hwins⟩

theorem bounded_createFold (ds : List NoteRecord) :
    ∀ s : AppState, (∀ d ∈ ds, 100 ≤ d.width ∧ 100 ≤ d.height) → boundedState s →
      boundedState ((ds.foldl (fun acc d => create_new_note_data d acc) s)) := by
  induction ds with
  | nil => intro s _ h; exact h
  | cons d ds ih =>
    intro s hds h
    rw [List.foldl_cons]
    exact ih (create_new_note_data d s) (fun d' hd' => hds d' (List.mem_cons_of_mem d hd'))
      (bounded_create_new_note_data (hds d (List.mem_cons_self d ds)) h)

theorem boundedRecs_markWasOpen {recs : List NoteRecord} {i : String} (hb : boundedRecs recs) :
    boundedRecs (markWasOpen recs i) := by
  intro r hr
  rcases markWasOpen_mem hr with h | ⟨r0, hr0, he⟩
  · exact hb r h
  · rw [he]; exact hb r0 hr0

theorem boundedRecs_exitFold (ws : List LiveWindow) :
    ∀ recs : List NoteRecord, boundedRecs recs →
      boundedRecs
        (ws.foldl (fun acc w => if w.alive then markWasOpen acc w.note_id else acc) recs) := by
  induction ws with
  | nil => intro recs h; exact h
  | cons w ws ih =>
    intro recs h
    rw [List.foldl_cons]
    by_cases hw : w.alive = true
    · rw [if_pos hw]
      exact ih _ (boundedRecs_markWasOpen h)
    · rw [if_neg hw]
      exact ih _ h

/-- Claim C8: the 100-pixel minimum on widths and heights is preserved by
every user-level operation — resizing clamps to 100, brand-new windows are
200x200, and every other operation copies existing dimensions — provided the
operation's own record input satisfies it (only `load` carries externally
produced dimensions, and the code never validates them). -/
theorem c8_min_size_preserved (op : Op) (s : AppState) (h : boundedState s)
    (hop : opBounded op) : boundedState (applyOp op s) := by
  cases op with
  | createBlank t px py =>
    show boundedState (create_new_note_blank t px py s)
    unfold create_new_note_blank
    refine bounded_refresh ⟨boundedRecs_append h.1 ?_, boundedWins_append h.2 ?_⟩
    · exact ⟨show (100 : Int) ≤ 200 by norm_num, show (100 : Int) ≤ 200 by norm_num⟩
    · intro w hw
      rw [List.mem_singleton] at hw
      rw [hw]
      exact ⟨show (100 : Int) ≤ 200 by norm_num, show (100 : Int) ≤ 200 by norm_num⟩
  | openSelected i =>
    show boundedState (open_selected_note i s)
    unfold open_selected_note
    by_cases hb : (s.notes.find? (fun w => w.alive && w.note_id == i)).isSome
    · rw [if_pos hb]; exact h
    · rw [if_neg hb]
      cases hf : findFirst s.all_notes i with
      | none => exact h
      | some r =>
        rcases findFirst_mem hf with ⟨hrm, _⟩
        have hrd : 100 ≤ r.width ∧ 100 ≤ r.height := h.1 r hrm
        exact bounded_create_new_note_data hrd ⟨boundedRecs_replaceFirst h.1 hrd, h.2⟩
  | focusOut i => exact bounded_save_note i h
  | closeWin i => exact bounded_on_close i h
  | recolor i c =>
    show boundedState (change_selected_note_color i c s)
    unfold change_selected_note_color
    cases hf : findFirst s.all_notes i with
    | none => exact h
    | some r =>
      have hrd : 100 ≤ r.width ∧ 100 ≤ r.height := h.1 r (findFirst_mem hf).1
      refine bounded_refresh (bounded_save_notes ⟨boundedRecs_replaceFirst h.1 hrd, ?_⟩)
      intro w hw
      rcases List.mem_map.mp hw with ⟨w0, hw0, he⟩
      have hw0b := h.2 w0 hw0
      rw [← he]
      by_cases hc : w0.alive && w0.note_id == i
      · rw [if_pos hc]; exact hw0b
      · rw [if_neg hc]; exact hw0b
  | refreshList => exact bounded_refresh h
  | saveAll => exact bounded_save_notes h
  | exitApp =>
    show boundedState (on_exit s)
    unfold on_exit
    exact bounded_save_notes ⟨boundedRecs_exitFold s.notes s.all_notes h.1, h.2⟩
  | deleteNote i =>
    show boundedState (delete_selected_note i s)
    unfold delete_selected_note
    refine bounded_refresh (bounded_save_notes ⟨?_, ?_⟩)
    · exact boundedRecs_of_sub (fun r hr => (eraseFirst_sublist s.all_notes i).mem hr) h.1
    · exact boundedWins_of_sub (fun w hw => List.mem_of_mem_filter hw) h.2
  | resizeWin i dx dy =>
    show boundedState (on_resize i dx dy s)
    cases hg : s.notes.get? i with
    | none => simp only [on_resize, hg]; exact h
    | some w =>
      by_cases hw : w.alive = true
      · simp only [on_resize, hg]
        rw [if_pos hw]
        exact ⟨h.1, boundedWins_set h.2 ⟨le_max_left 100 _, le_max_left 100 _⟩⟩
      · simp only [on_resize, hg]
        rw [if_neg hw]
        exact h
  | setText i t =>
    show boundedState (type_text i t s)
    cases hg : s.notes.get? i with
    | none => simp only [type_text, hg]; exact h
    | some w =>
      by_cases hw : w.alive = true
      · simp only [type_text, hg]
        rw [if_pos hw]
        refine ⟨h.1, boundedWins_set h.2 ?_⟩
        exact h.2 w (List.get?_mem hg)
      · simp only [type_text, hg]
        rw [if_neg hw]
        exact h
  | loadFile L =>
    show boundedState (load_notes L s)
    unfold load_notes
    have hL : boundedRecs L := hop
    have h1 : boundedState (refresh_note_list { s with all_notes := L }) :=
      bounded_refresh ⟨hL, h.2⟩
    refine bounded_createFold _ _ ?_ h1
    intro d hd
    exact h1.1 d (List.mem_of_mem_filter hd)

/-- Claim C8 witness: on the concrete bounded state with one live window,
a resize drag far below the minimum still leaves every record and window at
least 100 wide and high. -/
theorem c8_min_size_witness :
    boundedState (applyOp (.resizeWin 0 (-500) (-500)) stAW) :=
  c8_min_size_preserved (.resizeWin 0 (-500) (-500)) stAW
    (by constructor <;> (intro x hx; simp [stAW, recA, winA] at hx; subst hx; constructor <;> decide))
    trivial
